import Mathlib

/-!
Verification of the `sqlite06` Go package (file `sqlite06.go`), a small data-access
layer over two SQLite tables `Users (ID, Username)` and `Userdata (UserID, Name,
Surname, Description)`.

The database is modelled as explicit state: a `DB` value holds the two tables as
lists of rows in insertion (rowid) order.  Each Go function becomes a Lean
function from the input and the current `DB` to its Go return value paired with
the resulting `DB`.  SQL statements are transcribed by their effect on the row
lists: a `SELECT ... WHERE` is a `filter`, row iteration with repeated `Scan`
into one variable is a left fold that keeps the last row, `INSERT INTO Users
values (NULL,?)` appends a row whose fresh id is one more than the largest
existing id (SQLite's rowid assignment for an INTEGER PRIMARY KEY), and the
`DELETE`/`UPDATE` statements filter or map over the row lists.
Engine-level failures (`db.Query` returning an error, `rows.Scan` failing) are
modelled for the private lookup helper by an explicit `EngineOutcome` parameter;
the public operations are modelled on the error-free execution path.
-/

namespace Sqlite06

/-- Character-wise lowercasing of a string, modelling Go `strings.ToLower`
(restricted to the simple per-character fold that `Char.toLower` performs). -/
def stringsToLower (s : String) : String := ⟨s.data.map Char.toLower⟩

/-- One row of the `Users` table: `Users (ID, Username)`. -/
structure UserRow where
  id : Int
  username : String
  deriving DecidableEq, Repr

/-- One row of the `Userdata` table: `Userdata (UserID, Name, Surname, Description)`. -/
structure ProfileRow where
  userID : Int
  name : String
  surname : String
  description : String
  deriving DecidableEq, Repr

/-- The database state: both tables, rows in insertion (rowid) order. -/
structure DB where
  users : List UserRow
  userdata : List ProfileRow
  deriving DecidableEq, Repr

/-- The Go struct `Userdata` exposed to callers (the combined record shape). -/
structure Userdata where
  ID : Int
  Username : String
  Name : String
  Surname : String
  Description : String
  deriving DecidableEq, Repr

/-- Possible engine behaviours for one query executed by the lookup helper:
the query itself may fail (`db.Query` returns an error), or scanning the `n`-th
result row may fail (`rows.Scan` returns an error), or everything succeeds. -/
inductive EngineOutcome where
  | ok : EngineOutcome
  | queryError : EngineOutcome
  | scanErrorAt : Nat → EngineOutcome
  deriving DecidableEq, Repr

/-- Result rows of `SELECT ID FROM Users WHERE Username = ?` run with the given
(already lowercased) parameter. -/
def selectIdsByUsername (username : String) (db : DB) : List Int :=
  (db.users.filter (fun u => u.username == username)).map (fun u => u.id)

/-- The private Go helper `exists(username string) int` (sqlite06.go:47-78), with
an explicit engine outcome.  It lowercases the argument, runs
`SELECT ID FROM Users WHERE Username = ?`, and returns `-1` on a query error,
`-1` on a scan error at a row the query produced, and otherwise the result of
the scan loop, which starts from `-1` and overwrites `userID` with each row's id. -/
def existsRun (username : String) (db : DB) (e : EngineOutcome) : Int :=
  let ids := selectIdsByUsername (stringsToLower username) db
  match e with
  | EngineOutcome.queryError => -1
  | EngineOutcome.scanErrorAt n =>
      if n < ids.length then -1 else ids.foldl (fun _ i => i) (-1)
  | EngineOutcome.ok => ids.foldl (fun _ i => i) (-1)

/-- The private Go helper `exists` on the error-free engine path. -/
def «exists» (username : String) (db : DB) : Int :=
  existsRun username db EngineOutcome.ok

/-- The largest id in the `Users` table (0 when empty); `INSERT INTO Users
values (NULL,?)` assigns `maxUserId db + 1` as the fresh rowid. -/
def maxUserId (db : DB) : Int :=
  db.users.foldl (fun m u => max m u.id) 0

/-- Go `AddUser(d Userdata) int` (sqlite06.go:83-121): lowercases the username,
fails with `-1` if `exists` finds it, otherwise inserts the user row, re-queries
the id with `exists`, and on success inserts the profile row with that id and
returns it. -/
def AddUser (d : Userdata) (db : DB) : Int × DB :=
  let uname := stringsToLower d.Username
  let userID := «exists» uname db
  if userID ≠ -1 then
    (-1, db)
  else
    let db1 : DB := { db with users := db.users ++ [{ id := maxUserId db + 1, username := uname }] }
    let userID2 := «exists» uname db1
    if userID2 = -1 then
      (-1, db1)
    else
      (userID2,
        { db1 with userdata := db1.userdata ++
            [{ userID := userID2, name := d.Name, surname := d.Surname, description := d.Description }] })

/-- The username scanned by `DeleteUser`'s query `SELECT Username FROM Users
WHERE ID = ?` (sqlite06.go:131-146): the scan variable starts as `""` and is
overwritten by each result row, so it ends as the last matching row's username,
or stays `""` when no row matches. -/
def scannedUsername (id : Int) (db : DB) : String :=
  ((db.users.filter (fun u => u.id == id)).map (fun u => u.username)).foldl (fun _ s => s) ""

/-- Go `DeleteUser(id int) error` (sqlite06.go:123-166): scans the username for
`id`, fails when `exists` on that username returns `-1`, otherwise runs
`DELETE FROM Userdata WHERE UserID = ?` and then `DELETE FROM Users WHERE ID = ?`.
The first component is `some msg` for a returned error and `none` for success. -/
def DeleteUser (id : Int) (db : DB) : Option String × DB :=
  let username := scannedUsername id db
  if «exists» username db = -1 then
    (some ("user with ID " ++ toString id ++ " does not exist"), db)
  else
    let db1 : DB := { db with userdata := db.userdata.filter (fun p => !(p.userID == id)) }
    let db2 : DB := { db1 with users := db1.users.filter (fun u => !(u.id == id)) }
    (none, db2)

/-- The combined record built from a joined pair of rows: `ID` and `Username`
come from `Users`, the remaining fields from `Userdata`. -/
def combine (u : UserRow) (p : ProfileRow) : Userdata :=
  { ID := u.id, Username := u.username, Name := p.name, Surname := p.surname,
    Description := p.description }

/-- Go `ListUsers() ([]Userdata, error)` (sqlite06.go:168-203) on the error-free
path: the join `SELECT ... FROM USERS, Userdata WHERE Users.ID = Userdata.UserID`
yields, for each user row, one combined record per profile row whose `UserID`
equals the user's `ID`. -/
def ListUsers (db : DB) : List Userdata :=
  db.users.flatMap (fun u =>
    (db.userdata.filter (fun p => p.userID == u.id)).map (combine u))

/-- Go `UpdateUser(d Userdata) error` (sqlite06.go:206-230): looks up
`exists(d.Username)` and fails when it returns `-1`; otherwise runs
`UPDATE Userdata set Name = ?, Surname = ?, Description = ? WHERE UserID = ?`
with `d.ID` (the caller-supplied ID) as the `WHERE` parameter. -/
def UpdateUser (d : Userdata) (db : DB) : Option String × DB :=
  let userID := «exists» d.Username db
  if userID = -1 then
    (some ("the user " ++ d.Username ++ " does not exist"), db)
  else
    (none,
      { db with userdata := db.userdata.map (fun p =>
          if p.userID == d.ID then
            { p with name := d.Name, surname := d.Surname, description := d.Description }
          else p) })

/-- Referential-integrity invariant from the spec (§3): every `Userdata` row's
`UserID` references an existing `Users` row. -/
def FKInv (db : DB) : Prop :=
  ∀ p ∈ db.userdata, ∃ u ∈ db.users, u.id = p.userID

/-- Well-formedness of states produced by the package itself: ids are positive,
ids are pairwise distinct, and stored usernames are already lowercase. -/
def WF (db : DB) : Prop :=
  (∀ u ∈ db.users, 1 ≤ u.id) ∧
  (db.users.map (fun u => u.id)).Nodup ∧
  (∀ u ∈ db.users, stringsToLower u.username = u.username)

instance (db : DB) : Decidable (FKInv db) := by
  unfold FKInv
  infer_instance

instance (db : DB) : Decidable (WF db) := by
  unfold WF
  infer_instance

/-! ## Helper lemmas -/

theorem foldl_overwrite {α : Type} (l : List α) (init : α) :
    l.foldl (fun _ x => x) init = l.getLastD init := by
  induction l generalizing init with
  | nil => rfl
  | cons a l ih => rw [List.foldl_cons, List.getLastD_cons]; exact ih a

theorem getLastD_mem {α : Type} {l : List α} (h : l ≠ []) (d : α) : l.getLastD d ∈ l := by
  cases l with
  | nil => exact absurd rfl h
  | cons a l =>
      rw [List.getLastD_eq_getLast?, List.getLast?_eq_getLast (a :: l) h,
        Option.getD_some]
      exact List.getLast_mem h

theorem char_toNat_ofNat_valid (n : Nat) (h : n.isValidChar) : (Char.ofNat n).toNat = n := by
  simp [Char.ofNat, h, Char.ofNatAux, Char.toNat, UInt32.toNat, BitVec.toNat_ofNatLt]

theorem char_toLower_pos (c : Char) (h : c.toNat ≥ 65 ∧ c.toNat ≤ 90) :
    c.toLower = Char.ofNat (c.toNat + 32) := by
  show (if c.toNat ≥ 65 ∧ c.toNat ≤ 90 then Char.ofNat (c.toNat + 32) else c) = _
  rw [if_pos h]

theorem char_toLower_neg (c : Char) (h : ¬ (c.toNat ≥ 65 ∧ c.toNat ≤ 90)) :
    c.toLower = c := by
  show (if c.toNat ≥ 65 ∧ c.toNat ≤ 90 then Char.ofNat (c.toNat + 32) else c) = _
  rw [if_neg h]

theorem char_toLower_idem (c : Char) : c.toLower.toLower = c.toLower := by
  by_cases h : c.toNat ≥ 65 ∧ c.toNat ≤ 90
  · have hv : Nat.isValidChar (c.toNat + 32) := Or.inl (by omega)
    rw [char_toLower_pos c h]
    apply char_toLower_neg
    rw [char_toNat_ofNat_valid _ hv]
    omega
  · rw [char_toLower_neg c h, char_toLower_neg c h]

theorem stringsToLower_idem (s : String) :
    stringsToLower (stringsToLower s) = stringsToLower s := by
  unfold stringsToLower
  rw [List.map_map]
  exact congrArg String.mk (List.map_congr_left (fun c _ => char_toLower_idem c))

theorem mem_selectIds {u : String} {db : DB} {i : Int} :
    i ∈ selectIdsByUsername u db ↔ ∃ r ∈ db.users, r.username = u ∧ r.id = i := by
  unfold selectIdsByUsername
  simp only [List.mem_map, List.mem_filter, beq_iff_eq]
  constructor
  · rintro ⟨r, ⟨hm, hu⟩, hi⟩
    exact ⟨r, hm, hu, hi⟩
  · rintro ⟨r, hm, hu, hi⟩
    exact ⟨r, ⟨hm, hu⟩, hi⟩

theorem exists_eq_getLastD (u : String) (db : DB) :
    «exists» u db = (selectIdsByUsername (stringsToLower u) db).getLastD (-1) := by
  unfold «exists» existsRun
  exact foldl_overwrite _ _

theorem exists_eq_neg_of_fresh {u : String} {db : DB}
    (h : ∀ r ∈ db.users, r.username ≠ stringsToLower u) : «exists» u db = -1 := by
  rw [exists_eq_getLastD]
  have : selectIdsByUsername (stringsToLower u) db = [] := by
    unfold selectIdsByUsername
    rw [List.filter_eq_nil_iff.mpr ?_]
    · rfl
    · intro r hr
      simp only [beq_iff_eq]
      exact h r hr
  rw [this, List.getLastD_nil]

theorem exists_spec_of_ne {u : String} {db : DB} (h : «exists» u db ≠ -1) :
    ∃ r ∈ db.users, r.username = stringsToLower u ∧ r.id = «exists» u db := by
  rw [exists_eq_getLastD] at h ⊢
  by_cases hl : selectIdsByUsername (stringsToLower u) db = []
  · rw [hl, List.getLastD_nil] at h
    exact absurd rfl h
  · exact mem_selectIds.mp (getLastD_mem hl (-1))

theorem exists_ne_neg_of_mem {u : String} {db : DB} {r : UserRow}
    (hr : r ∈ db.users) (hu : r.username = stringsToLower u)
    (hpos : ∀ r' ∈ db.users, r'.id ≠ -1) : «exists» u db ≠ -1 := by
  rw [exists_eq_getLastD]
  have hne : selectIdsByUsername (stringsToLower u) db ≠ [] := by
    intro hnil
    have : r.id ∈ selectIdsByUsername (stringsToLower u) db :=
      mem_selectIds.mpr ⟨r, hr, hu, rfl⟩
    rw [hnil] at this
    exact List.not_mem_nil _ this
  have hmem := getLastD_mem hne (-1 : Int)
  obtain ⟨r', hr', _, hi⟩ := mem_selectIds.mp hmem
  rw [← hi]
  exact hpos r' hr'

theorem le_foldl_max (l : List UserRow) (init : Int) :
    init ≤ l.foldl (fun m u => max m u.id) init := by
  induction l generalizing init with
  | nil => exact le_refl _
  | cons a l ih =>
      rw [List.foldl_cons]
      exact le_trans (le_max_left init a.id) (ih (max init a.id))

theorem mem_le_foldl_max {l : List UserRow} {u : UserRow} (h : u ∈ l) (init : Int) :
    u.id ≤ l.foldl (fun m v => max m v.id) init := by
  induction l generalizing init with
  | nil => exact absurd h (List.not_mem_nil u)
  | cons a l ih =>
      rw [List.foldl_cons]
      rcases List.mem_cons.mp h with h' | h'
      · subst h'
        exact le_trans (le_max_right init u.id) (le_foldl_max l _)
      · exact ih h' _

theorem maxUserId_nonneg (db : DB) : 0 ≤ maxUserId db :=
  le_foldl_max db.users 0

theorem mem_le_maxUserId {db : DB} {u : UserRow} (h : u ∈ db.users) :
    u.id ≤ maxUserId db :=
  mem_le_foldl_max h 0

theorem mem_ListUsers {db : DB} {r : Userdata} :
    r ∈ ListUsers db ↔
      ∃ u ∈ db.users, ∃ p ∈ db.userdata, p.userID = u.id ∧ r = combine u p := by
  unfold ListUsers
  simp only [List.mem_flatMap, List.mem_map, List.mem_filter, beq_iff_eq]
  constructor
  · rintro ⟨u, hu, p, ⟨hp, hid⟩, hr⟩
    exact ⟨u, hu, p, hp, hid, hr.symm⟩
  · rintro ⟨u, hu, p, hp, hid, hr⟩
    exact ⟨u, hu, p, ⟨hp, hid⟩, hr.symm⟩

theorem filter_nodup_singleton (l : List UserRow) (u : UserRow)
    (hnd : (l.map (fun v => v.id)).Nodup) (hm : u ∈ l) :
    l.filter (fun v => v.id == u.id) = [u] := by
  induction l with
  | nil => exact absurd hm (List.not_mem_nil u)
  | cons a l ih =>
      rw [List.map_cons, List.nodup_cons] at hnd
      obtain ⟨hna, hnd'⟩ := hnd
      rcases List.mem_cons.mp hm with h' | h'
      · subst h'
        rw [List.filter_cons_of_pos (by simp), List.filter_eq_nil_iff.mpr ?_]
        intro v hv
        simp only [beq_iff_eq]
        intro hvid
        exact hna (List.mem_map.mpr ⟨v, hv, hvid⟩)
      · have hau : a.id ≠ u.id := by
          intro he
          exact hna (he ▸ List.mem_map.mpr ⟨u, h', rfl⟩)
        rw [List.filter_cons_of_neg (by simp [hau]), ih hnd' h']

theorem scannedUsername_of_no_match {id : Int} {db : DB}
    (h : ∀ u ∈ db.users, u.id ≠ id) : scannedUsername id db = "" := by
  unfold scannedUsername
  rw [List.filter_eq_nil_iff.mpr ?_]
  · rfl
  · intro u hu
    simp only [beq_iff_eq]
    exact h u hu

theorem scannedUsername_of_mem {db : DB} {u : UserRow}
    (hnd : (db.users.map (fun v => v.id)).Nodup) (hm : u ∈ db.users) :
    scannedUsername u.id db = u.username := by
  unfold scannedUsername
  rw [filter_nodup_singleton db.users u hnd hm]
  rfl

theorem flatMap_congr_left {α β : Type} {l : List α} {f g : α → List β}
    (h : ∀ a ∈ l, f a = g a) : l.flatMap f = l.flatMap g := by
  induction l with
  | nil => rfl
  | cons a l ih =>
      rw [List.flatMap_cons, List.flatMap_cons, h a (List.mem_cons_self a l),
        ih (fun b hb => h b (List.mem_cons_of_mem a hb))]

theorem listUsers_map_key_fields (db : DB) (f : ProfileRow → ProfileRow)
    (hf : ∀ p, (f p).userID = p.userID) :
    (ListUsers ⟨db.users, db.userdata.map f⟩).map (fun r => (r.ID, r.Username)) =
      (ListUsers db).map (fun r => (r.ID, r.Username)) := by
  unfold ListUsers
  rw [List.map_flatMap, List.map_flatMap]
  refine flatMap_congr_left ?_
  intro u _
  show ((((db.userdata.map f).filter (fun p => p.userID == u.id)).map (combine u)).map
      (fun r => (r.ID, r.Username))) =
    (((db.userdata.filter (fun p => p.userID == u.id)).map (combine u)).map
      (fun r => (r.ID, r.Username)))
  rw [List.filter_map]
  have hq : ((fun p => p.userID == u.id) ∘ f) = (fun p => p.userID == u.id) := by
    funext p
    show ((f p).userID == u.id) = (p.userID == u.id)
    rw [hf p]
  rw [hq, List.map_map, List.map_map, List.map_map]
  refine List.map_congr_left ?_
  intro p _
  rfl

/-! ## Claim theorems -/

/-- C7: the private lookup helper case-folds its argument and, on the error-free
path, returns the matching user id when one row matches; it returns the sentinel
-1 when zero rows match, when the query fails, and when scanning a produced row
fails, so "not found" and "error" collapse into one indistinguishable value. -/
theorem c7_exists_sentinel_collapse (u : String) (db : DB) :
    «exists» u db = existsRun u db EngineOutcome.ok ∧
    existsRun u db EngineOutcome.queryError = -1 ∧
    (∀ n, n < (selectIdsByUsername (stringsToLower u) db).length →
      existsRun u db (EngineOutcome.scanErrorAt n) = -1) ∧
    (selectIdsByUsername (stringsToLower u) db = [] →
      existsRun u db EngineOutcome.ok = -1) ∧
    (∀ i, selectIdsByUsername (stringsToLower u) db = [i] →
      existsRun u db EngineOutcome.ok = i) := by
  refine ⟨rfl, rfl, ?_, ?_, ?_⟩
  · intro n hn
    show (if n < (selectIdsByUsername (stringsToLower u) db).length then (-1 : Int)
      else (selectIdsByUsername (stringsToLower u) db).foldl (fun _ i => i) (-1)) = -1
    rw [if_pos hn]
  · intro h
    show (selectIdsByUsername (stringsToLower u) db).foldl (fun _ i => i) (-1) = -1
    rw [h]
    rfl
  · intro i h
    show (selectIdsByUsername (stringsToLower u) db).foldl (fun _ i => i) (-1) = i
    rw [h]
    rfl

/-- C7 witness: in the store with the single user alice(id 1), a failed query
for "alice" and a successful query for the absent "bob" both yield -1, a scan
error also yields -1, while a successful query for "alice" yields 1. -/
theorem c7_witness :
    existsRun "alice" ⟨[⟨1, "alice"⟩], []⟩ EngineOutcome.queryError = -1 ∧
    existsRun "alice" ⟨[⟨1, "alice"⟩], []⟩ (EngineOutcome.scanErrorAt 0) = -1 ∧
    existsRun "bob" ⟨[⟨1, "alice"⟩], []⟩ EngineOutcome.ok = -1 ∧
    existsRun "alice" ⟨[⟨1, "alice"⟩], []⟩ EngineOutcome.ok = 1 :=
  ⟨(c7_exists_sentinel_collapse "alice" ⟨[⟨1, "alice"⟩], []⟩).2.1,
    (c7_exists_sentinel_collapse "alice" ⟨[⟨1, "alice"⟩], []⟩).2.2.1 0 (by decide),
    (c7_exists_sentinel_collapse "bob" ⟨[⟨1, "alice"⟩], []⟩).2.2.2.1 (by decide),
    (c7_exists_sentinel_collapse "alice" ⟨[⟨1, "alice"⟩], []⟩).2.2.2.2 1 (by decide)⟩

/-- C10: when several `Users` rows carry the same case-folded username, the
private lookup helper returns the id of the last matching row yielded by the
query, each loop iteration overwriting the previous match. -/
theorem c10_exists_returns_last_match (db : DB) (u : String) (ids : List Int)
    (h : selectIdsByUsername (stringsToLower u) db = ids) (hne : ids ≠ []) :
    «exists» u db = ids.getLast hne := by
  rw [exists_eq_getLastD, h, List.getLastD_eq_getLast?,
    List.getLast?_eq_getLast ids hne, Option.getD_some]

/-- C10 witness: with two rows both storing the username "alice" (ids 1 and 2),
the lookup for "Alice" returns the later row's id 2, not the first match 1. -/
theorem c10_witness :
    «exists» "Alice" ⟨[⟨1, "alice"⟩, ⟨2, "alice"⟩], []⟩ = 2 :=
  c10_exists_returns_last_match ⟨[⟨1, "alice"⟩, ⟨2, "alice"⟩], []⟩ "Alice"
    [1, 2] (by decide) (by decide)

/-- C3: if a user row with the same case-folded username already exists (under
any casing of the input) and no stored id equals the sentinel -1, `AddUser`
returns -1 and leaves both tables unchanged. -/
theorem c3_addUser_duplicate_fails (db : DB) (d : Userdata) (u0 : UserRow)
    (hmem : u0 ∈ db.users) (hname : u0.username = stringsToLower d.Username)
    (hpos : ∀ u ∈ db.users, u.id ≠ -1) :
    AddUser d db = (-1, db) := by
  have hne : «exists» (stringsToLower d.Username) db ≠ -1 := by
    refine exists_ne_neg_of_mem (r := u0) hmem ?_ hpos
    rw [hname, stringsToLower_idem]
  simp only [AddUser]
  rw [if_pos hne]

/-- C3 witness: after alice(id 1) is stored, adding the record with username
"ALICE" (different casing) fails with -1 and the store is unchanged. -/
theorem c3_witness :
    AddUser ⟨0, "ALICE", "X", "Y", "Z"⟩ ⟨[⟨1, "alice"⟩], [⟨1, "N", "S", "D"⟩]⟩ =
      (-1, ⟨[⟨1, "alice"⟩], [⟨1, "N", "S", "D"⟩]⟩) :=
  c3_addUser_duplicate_fails ⟨[⟨1, "alice"⟩], [⟨1, "N", "S", "D"⟩]⟩
    ⟨0, "ALICE", "X", "Y", "Z"⟩ ⟨1, "alice"⟩ (by decide) (by decide) (by decide)

/-- C4 counterexample: in the store with the single user row (1, "") — reachable
by `AddUser` of an empty username — the id 2 matches no user row, yet
`DeleteUser 2` succeeds instead of failing with the NotFound error. -/
theorem c4_counterexample :
    (∀ u ∈ (DB.mk [⟨1, ""⟩] [⟨1, "n", "s", "d"⟩]).users, u.id ≠ 2) ∧
    DeleteUser 2 ⟨[⟨1, ""⟩], [⟨1, "n", "s", "d"⟩]⟩ =
      (none, ⟨[⟨1, ""⟩], [⟨1, "n", "s", "d"⟩]⟩) := by
  decide

/-- C4 (amended): for every id with no matching user row, provided no stored
username is the empty string, `DeleteUser` fails with the NotFound error and
leaves both tables unchanged. -/
theorem c4_deleteUser_missing_id_fails (db : DB) (id : Int)
    (hno : ∀ u ∈ db.users, u.id ≠ id)
    (hne : ∀ u ∈ db.users, u.username ≠ "") :
    DeleteUser id db =
      (some ("user with ID " ++ toString id ++ " does not exist"), db) := by
  have hsu : scannedUsername id db = "" := scannedUsername_of_no_match hno
  have hex : «exists» "" db = -1 := by
    refine exists_eq_neg_of_fresh ?_
    intro r hr
    exact hne r hr
  simp only [DeleteUser]
  rw [hsu, if_pos hex]

/-- C4 witness: deleting the absent id 7 from the store holding only alice(id 1)
returns the NotFound error and changes nothing. -/
theorem c4_witness :
    DeleteUser 7 ⟨[⟨1, "alice"⟩], []⟩ =
      (some ("user with ID " ++ toString (7 : Int) ++ " does not exist"),
        ⟨[⟨1, "alice"⟩], []⟩) :=
  c4_deleteUser_missing_id_fails ⟨[⟨1, "alice"⟩], []⟩ 7 (by decide) (by decide)

/-- C9: when `DeleteUser` is called for an id with no matching user row, the
scanned username stays the empty string, so the NotFound error is returned
exactly when the lookup of the empty-string username returns -1; when the store
contains a user row whose stored username is the empty string (in a state
satisfying the package's invariants), `DeleteUser` of the missing id instead
executes both DELETE statements, which match no rows, and returns success. -/
theorem c9_deleteUser_empty_username (db : DB) (id : Int)
    (hno : ∀ u ∈ db.users, u.id ≠ id) :
    («exists» "" db = -1 →
      DeleteUser id db =
        (some ("user with ID " ++ toString id ++ " does not exist"), db)) ∧
    («exists» "" db ≠ -1 → (DeleteUser id db).1 = none) ∧
    (FKInv db → (∀ u ∈ db.users, 1 ≤ u.id) → (∃ u ∈ db.users, u.username = "") →
      DeleteUser id db = (none, db)) := by
  have hsu : scannedUsername id db = "" := scannedUsername_of_no_match hno
  refine ⟨?_, ?_, ?_⟩
  · intro hex
    simp only [DeleteUser]
    rw [hsu, if_pos hex]
  · intro hex
    simp only [DeleteUser]
    rw [hsu, if_neg hex]
  · intro hfk hpos hes
    obtain ⟨u0, hu0, hu0name⟩ := hes
    have hex : «exists» "" db ≠ -1 := by
      refine exists_ne_neg_of_mem (r := u0) hu0 hu0name ?_
      intro r hr heq
      have := hpos r hr
      rw [heq] at this
      exact absurd this (by norm_num)
    have hud : db.userdata.filter (fun p => !(p.userID == id)) = db.userdata := by
      refine List.filter_eq_self.mpr ?_
      intro p hp
      obtain ⟨u, hu, huid⟩ := hfk p hp
      have : p.userID ≠ id := by
        rw [← huid]
        exact hno u hu
      simp [this]
    have hus : db.users.filter (fun u => !(u.id == id)) = db.users := by
      refine List.filter_eq_self.mpr ?_
      intro u hu
      simp [hno u hu]
    simp only [DeleteUser]
    rw [hsu, if_neg hex, hud, hus]

/-- C9 witness: in the store whose single user row is (1, ""), deleting the
absent id 2 succeeds and leaves the store unchanged. -/
theorem c9_witness :
    DeleteUser 2 ⟨[⟨1, ""⟩], [⟨1, "n", "s", "d"⟩]⟩ =
      (none, ⟨[⟨1, ""⟩], [⟨1, "n", "s", "d"⟩]⟩) :=
  (c9_deleteUser_empty_username ⟨[⟨1, ""⟩], [⟨1, "n", "s", "d"⟩]⟩ 2
    (by decide)).2.2 (by decide) (by decide) (by decide)

/-- C8: assuming every executed statement succeeds, the mutating operations
preserve the invariant that every `Userdata` row's `UserID` references an
existing `Users` row, and `UpdateUser` leaves every row's `UserID` unchanged;
`ListUsers` takes the state and returns only the combined records, so it cannot
mutate it. -/
theorem c8_fk_invariant_preserved (db : DB) (d : Userdata) (id : Int)
    (h : FKInv db) :
    FKInv (AddUser d db).2 ∧ FKInv (DeleteUser id db).2 ∧
    FKInv (UpdateUser d db).2 ∧
    (UpdateUser d db).2.userdata.map (fun p => p.userID) =
      db.userdata.map (fun p => p.userID) := by
  refine ⟨?_, ?_, ?_, ?_⟩
  · -- AddUser: the user row is inserted first, and the profile row references
    -- the id that the re-query resolved, which is a stored user's id.
    simp only [AddUser]
    by_cases h1 : «exists» (stringsToLower d.Username) db ≠ -1
    · rw [if_pos h1]
      exact h
    · rw [if_neg h1]
      set db1 : DB :=
        { db with users := db.users ++
            [{ id := maxUserId db + 1, username := stringsToLower d.Username }] } with hdb1
      have hsub : ∀ p ∈ db.userdata, ∃ u ∈ db1.users, u.id = p.userID := by
        intro p hp
        obtain ⟨u, hu, huid⟩ := h p hp
        exact ⟨u, List.mem_append_left _ hu, huid⟩
      by_cases h2 : «exists» (stringsToLower d.Username) db1 = -1
      · rw [if_pos h2]
        exact hsub
      · rw [if_neg h2]
        intro p hp
        rcases List.mem_append.mp hp with hp' | hp'
        · exact hsub p hp'
        · obtain ⟨r, hr, hrname, hrid⟩ := exists_spec_of_ne h2
          have hpeq := List.mem_singleton.mp hp'
          exact ⟨r, hr, hrid.trans (by rw [hpeq])⟩
  · -- DeleteUser: the profile rows for the id are removed before the user rows,
    -- and every surviving profile references a surviving user.
    simp only [DeleteUser]
    by_cases hc : «exists» (scannedUsername id db) db = -1
    · rw [if_pos hc]
      exact h
    · rw [if_neg hc]
      intro p hp
      have hp' := List.mem_filter.mp hp
      obtain ⟨u, hu, huid⟩ := h p hp'.1
      have hpid : p.userID ≠ id := by
        have := hp'.2
        simpa using this
      refine ⟨u, List.mem_filter.mpr ⟨hu, ?_⟩, huid⟩
      simp [huid ▸ hpid]
  · -- UpdateUser: the UPDATE only rewrites profile fields, never UserID.
    simp only [UpdateUser]
    by_cases hc : «exists» d.Username db = -1
    · rw [if_pos hc]
      exact h
    · rw [if_neg hc]
      intro p hp
      obtain ⟨q, hq, hqp⟩ := List.mem_map.mp hp
      obtain ⟨u, hu, huid⟩ := h q hq
      refine ⟨u, hu, ?_⟩
      rw [← hqp]
      split <;> exact huid
  · simp only [UpdateUser]
    by_cases hc : «exists» d.Username db = -1
    · rw [if_pos hc]
    · rw [if_neg hc]
      show (db.userdata.map (fun p =>
          if p.userID == d.ID then
            { p with name := d.Name, surname := d.Surname, description := d.Description }
          else p)).map (fun p => p.userID) = db.userdata.map (fun p => p.userID)
      rw [List.map_map]
      refine List.map_congr_left ?_
      intro p _
      show (if p.userID == d.ID then
          { p with name := d.Name, surname := d.Surname, description := d.Description }
        else p).userID = p.userID
      split <;> rfl

/-- C8 witness: the invariant is preserved in the concrete store holding
alice(id 1) with her profile, for an add of "bob", a delete of id 1 and an
update of alice's record. -/
theorem c8_witness :
    FKInv (AddUser ⟨0, "bob", "B", "B", "B"⟩ ⟨[⟨1, "alice"⟩], [⟨1, "N", "S", "D"⟩]⟩).2 ∧
    FKInv (DeleteUser 1 ⟨[⟨1, "alice"⟩], [⟨1, "N", "S", "D"⟩]⟩).2 ∧
    FKInv (UpdateUser ⟨1, "alice", "X", "Y", "Z"⟩ ⟨[⟨1, "alice"⟩], [⟨1, "N", "S", "D"⟩]⟩).2 ∧
    (UpdateUser ⟨1, "alice", "X", "Y", "Z"⟩ ⟨[⟨1, "alice"⟩], [⟨1, "N", "S", "D"⟩]⟩).2.userdata.map
        (fun p => p.userID) =
      (DB.mk [⟨1, "alice"⟩] [⟨1, "N", "S", "D"⟩]).userdata.map (fun p => p.userID) :=
  ⟨(c8_fk_invariant_preserved ⟨[⟨1, "alice"⟩], [⟨1, "N", "S", "D"⟩]⟩
      ⟨0, "bob", "B", "B", "B"⟩ 1 (by decide)).1,
    (c8_fk_invariant_preserved ⟨[⟨1, "alice"⟩], [⟨1, "N", "S", "D"⟩]⟩
      ⟨1, "alice", "X", "Y", "Z"⟩ 1 (by decide)).2.1,
    (c8_fk_invariant_preserved ⟨[⟨1, "alice"⟩], [⟨1, "N", "S", "D"⟩]⟩
      ⟨1, "alice", "X", "Y", "Z"⟩ 1 (by decide)).2.2.1,
    (c8_fk_invariant_preserved ⟨[⟨1, "alice"⟩], [⟨1, "N", "S", "D"⟩]⟩
      ⟨1, "alice", "X", "Y", "Z"⟩ 1 (by decide)).2.2.2⟩

/-- C5: `ListUsers` is the inner join of `Users` and `Userdata` on
`Users.ID = Userdata.UserID`: a combined record is in the result exactly when a
user row and a profile row match on those columns (so a user row with no
matching profile row is silently omitted), and the result has exactly one
combined record per matched user/profile pair. -/
theorem c5_listUsers_inner_join (db : DB) (r : Userdata) :
    (r ∈ ListUsers db ↔
      ∃ u ∈ db.users, ∃ p ∈ db.userdata, p.userID = u.id ∧ r = combine u p) ∧
    (ListUsers db).length =
      (db.users.map (fun u =>
        (db.userdata.filter (fun p => p.userID == u.id)).length)).sum := by
  refine ⟨mem_ListUsers, ?_⟩
  unfold ListUsers
  rw [List.length_flatMap]
  refine congrArg List.sum (List.map_congr_left ?_)
  intro u _
  show ((db.userdata.filter (fun p => p.userID == u.id)).map (combine u)).length =
    (db.userdata.filter (fun p => p.userID == u.id)).length
  rw [List.length_map]

/-- C6: for an id present in both tables, in a state the package itself can
produce, `DeleteUser` succeeds; the resulting state is the input state with the
profile rows for that id removed (first DELETE) and the user rows with that id
removed (second DELETE), and a subsequent `ListUsers` contains no record with
that id. -/
theorem c6_deleteUser_removes_record (db : DB) (id : Int) (u : UserRow)
    (hwf : WF db) (hmem : u ∈ db.users) (hid : u.id = id)
    (hprof : ∃ p ∈ db.userdata, p.userID = id) :
    (DeleteUser id db).1 = none ∧
    (DeleteUser id db).2.userdata = db.userdata.filter (fun p => !(p.userID == id)) ∧
    (DeleteUser id db).2.users = db.users.filter (fun v => !(v.id == id)) ∧
    ∀ r ∈ ListUsers (DeleteUser id db).2, r.ID ≠ id := by
  obtain ⟨hpos, hnd, hlow⟩ := hwf
  subst hid
  have hsu : scannedUsername u.id db = u.username := scannedUsername_of_mem hnd hmem
  have hcond : «exists» u.username db ≠ -1 := by
    refine exists_ne_neg_of_mem (r := u) hmem (hlow u hmem).symm ?_
    intro r hr heq
    have := hpos r hr
    rw [heq] at this
    exact absurd this (by norm_num)
  have hdel : DeleteUser u.id db =
      (none, ⟨db.users.filter (fun v => !(v.id == u.id)),
        db.userdata.filter (fun p => !(p.userID == u.id))⟩) := by
    simp only [DeleteUser]
    rw [hsu, if_neg hcond]
  refine ⟨by rw [hdel], by rw [hdel], by rw [hdel], ?_⟩
  intro r hr
  rw [hdel] at hr
  obtain ⟨u', hu', p', hp', hpid, hreq⟩ := mem_ListUsers.mp hr
  have hu'id : u'.id ≠ u.id := by
    have := (List.mem_filter.mp hu').2
    simpa using this
  rw [hreq]
  exact hu'id

/-- C6 witness: deleting id 1 from the store holding alice(id 1) and her
profile succeeds, removes both rows, and the follow-up listing is empty of
records with id 1. -/
theorem c6_witness :
    (DeleteUser 1 ⟨[⟨1, "alice"⟩], [⟨1, "N", "S", "D"⟩]⟩).1 = none ∧
    (DeleteUser 1 ⟨[⟨1, "alice"⟩], [⟨1, "N", "S", "D"⟩]⟩).2.userdata =
      (DB.mk [⟨1, "alice"⟩] [⟨1, "N", "S", "D"⟩]).userdata.filter
        (fun p => !(p.userID == 1)) ∧
    (DeleteUser 1 ⟨[⟨1, "alice"⟩], [⟨1, "N", "S", "D"⟩]⟩).2.users =
      (DB.mk [⟨1, "alice"⟩] [⟨1, "N", "S", "D"⟩]).users.filter
        (fun v => !(v.id == 1)) ∧
    ∀ r ∈ ListUsers (DeleteUser 1 ⟨[⟨1, "alice"⟩], [⟨1, "N", "S", "D"⟩]⟩).2, r.ID ≠ 1 :=
  c6_deleteUser_removes_record ⟨[⟨1, "alice"⟩], [⟨1, "N", "S", "D"⟩]⟩ 1 ⟨1, "alice"⟩
    (by decide) (by decide) (by decide) (by decide)

/-- C1 counterexample: with users alice(id 1) and bob(id 2) and their profiles,
updating the record {ID := 2, Username := "alice", ...} succeeds, yet the
profile row whose UserID is the id resolved from the username lookup (1) keeps
its old fields while the row whose UserID equals the caller-supplied ID (2) is
overwritten: the UPDATE targets `d.ID`, so the claim that the caller-supplied
ID is ignored and the target recomputed from the username fails here. -/
theorem c1_counterexample :
    «exists» "alice"
      ⟨[⟨1, "alice"⟩, ⟨2, "bob"⟩], [⟨1, "A", "B", "old"⟩, ⟨2, "C", "D", "old2"⟩]⟩ = 1 ∧
    UpdateUser ⟨2, "alice", "N", "S", "Dnew"⟩
        ⟨[⟨1, "alice"⟩, ⟨2, "bob"⟩], [⟨1, "A", "B", "old"⟩, ⟨2, "C", "D", "old2"⟩]⟩ =
      (none, ⟨[⟨1, "alice"⟩, ⟨2, "bob"⟩], [⟨1, "A", "B", "old"⟩, ⟨2, "N", "S", "Dnew"⟩]⟩) := by
  decide

/-- C1 (amended): `UpdateUser` resolves an id from `d.Username` only for the
existence check; the UPDATE statement targets the profile rows whose UserID
equals the caller-supplied `d.ID`.  When the caller passes `d.ID` equal to the
resolved id, the profile row for that id gets the new Name/Surname/Description
and a follow-up `ListUsers` shows the updated profile fields with every
record's ID and Username unchanged. -/
theorem c1_updateUser_targets_caller_id (db : DB) (d : Userdata)
    (hex : «exists» d.Username db ≠ -1)
    (hid : d.ID = «exists» d.Username db) :
    (UpdateUser d db).1 = none ∧
    (UpdateUser d db).2.users = db.users ∧
    (UpdateUser d db).2.userdata = db.userdata.map (fun p =>
      if p.userID == d.ID then
        { p with name := d.Name, surname := d.Surname, description := d.Description }
      else p) ∧
    (ListUsers (UpdateUser d db).2).map (fun r => (r.ID, r.Username)) =
      (ListUsers db).map (fun r => (r.ID, r.Username)) ∧
    (∀ r ∈ ListUsers (UpdateUser d db).2, r.ID = d.ID →
      r.Name = d.Name ∧ r.Surname = d.Surname ∧ r.Description = d.Description) := by
  have hup : UpdateUser d db =
      (none, ⟨db.users, db.userdata.map (fun p =>
        if p.userID == d.ID then
          { p with name := d.Name, surname := d.Surname, description := d.Description }
        else p)⟩) := by
    simp only [UpdateUser]
    rw [if_neg hex]
  have hfP : ∀ p : ProfileRow, ((if p.userID == d.ID then
      { p with name := d.Name, surname := d.Surname, description := d.Description }
    else p) : ProfileRow).userID = p.userID := by
    intro p
    split <;> rfl
  refine ⟨by rw [hup], by rw [hup], by rw [hup], ?_, ?_⟩
  · rw [hup]
    exact listUsers_map_key_fields db _ hfP
  · intro r hr hrid
    rw [hup] at hr
    obtain ⟨u', hu', p', hp', hpid, hreq⟩ := mem_ListUsers.mp hr
    obtain ⟨q, hq, hqp⟩ := List.mem_map.mp hp'
    have h1 : p'.userID = q.userID := by
      rw [← hqp]
      exact hfP q
    have h2 : r.ID = u'.id := by
      rw [hreq]
      rfl
    have hqid : q.userID = d.ID := by
      rw [← h1, hpid, ← h2, hrid]
    have hcond : (q.userID == d.ID) = true := beq_iff_eq.mpr hqid
    have hp'eq :
        p' = { q with name := d.Name, surname := d.Surname, description := d.Description } := by
      rw [← hqp, if_pos hcond]
    rw [hreq, hp'eq]
    exact ⟨rfl, rfl, rfl⟩

/-- C1 witness: with the resolved id passed as the record's ID (alice resolves
to 1), updating alice's record succeeds, rewrites exactly her profile row, and
the follow-up listing keeps every ID and Username. -/
theorem c1_witness :
    (UpdateUser ⟨1, "alice", "N", "S", "Dnew"⟩
        ⟨[⟨1, "alice"⟩, ⟨2, "bob"⟩], [⟨1, "A", "B", "old"⟩, ⟨2, "C", "D", "old2"⟩]⟩).1 = none ∧
    (UpdateUser ⟨1, "alice", "N", "S", "Dnew"⟩
        ⟨[⟨1, "alice"⟩, ⟨2, "bob"⟩], [⟨1, "A", "B", "old"⟩, ⟨2, "C", "D", "old2"⟩]⟩).2.users =
      (DB.mk [⟨1, "alice"⟩, ⟨2, "bob"⟩] [⟨1, "A", "B", "old"⟩, ⟨2, "C", "D", "old2"⟩]).users ∧
    (UpdateUser ⟨1, "alice", "N", "S", "Dnew"⟩
        ⟨[⟨1, "alice"⟩, ⟨2, "bob"⟩], [⟨1, "A", "B", "old"⟩, ⟨2, "C", "D", "old2"⟩]⟩).2.userdata =
      (DB.mk [⟨1, "alice"⟩, ⟨2, "bob"⟩] [⟨1, "A", "B", "old"⟩, ⟨2, "C", "D", "old2"⟩]).userdata.map
        (fun p => if p.userID == (1 : Int) then
          { p with name := "N", surname := "S", description := "Dnew" }
        else p) ∧
    (ListUsers (UpdateUser ⟨1, "alice", "N", "S", "Dnew"⟩
        ⟨[⟨1, "alice"⟩, ⟨2, "bob"⟩], [⟨1, "A", "B", "old"⟩, ⟨2, "C", "D", "old2"⟩]⟩).2).map
        (fun r => (r.ID, r.Username)) =
      (ListUsers ⟨[⟨1, "alice"⟩, ⟨2, "bob"⟩], [⟨1, "A", "B", "old"⟩, ⟨2, "C", "D", "old2"⟩]⟩).map
        (fun r => (r.ID, r.Username)) ∧
    (∀ r ∈ ListUsers (UpdateUser ⟨1, "alice", "N", "S", "Dnew"⟩
        ⟨[⟨1, "alice"⟩, ⟨2, "bob"⟩], [⟨1, "A", "B", "old"⟩, ⟨2, "C", "D", "old2"⟩]⟩).2,
      r.ID = (1 : Int) → r.Name = "N" ∧ r.Surname = "S" ∧ r.Description = "Dnew") :=
  c1_updateUser_targets_caller_id
    ⟨[⟨1, "alice"⟩, ⟨2, "bob"⟩], [⟨1, "A", "B", "old"⟩, ⟨2, "C", "D", "old2"⟩]⟩
    ⟨1, "alice", "N", "S", "Dnew"⟩ (by decide) (by decide)

/-- C2: for a record whose case-folded username is not yet stored (in a state
respecting the foreign-key invariant), `AddUser` appends one
user row carrying the freshly generated id and one profile row referencing that
id, returns the generated id (which is positive), and a subsequent `ListUsers`
contains exactly one combined record with that username, whose ID is the value
`AddUser` returned. -/
theorem c2_addUser_fresh_roundtrip (db : DB) (d : Userdata)
    (hfk : FKInv db)
    (hfresh : ∀ u ∈ db.users, u.username ≠ stringsToLower d.Username) :
    (AddUser d db).1 = maxUserId db + 1 ∧
    1 ≤ (AddUser d db).1 ∧
    (AddUser d db).2.users =
      db.users ++ [⟨maxUserId db + 1, stringsToLower d.Username⟩] ∧
    (AddUser d db).2.userdata =
      db.userdata ++ [⟨maxUserId db + 1, d.Name, d.Surname, d.Description⟩] ∧
    (ListUsers (AddUser d db).2).filter
        (fun r => r.Username == stringsToLower d.Username) =
      [⟨maxUserId db + 1, stringsToLower d.Username, d.Name, d.Surname, d.Description⟩] := by
  have hidem := stringsToLower_idem d.Username
  have hmax := maxUserId_nonneg db
  have hfilter_nil :
      db.users.filter (fun u => u.username == stringsToLower d.Username) = [] := by
    refine List.filter_eq_nil_iff.mpr ?_
    intro r hr
    simp only [beq_iff_eq]
    exact hfresh r hr
  have h1 : «exists» (stringsToLower d.Username) db = -1 := by
    refine exists_eq_neg_of_fresh ?_
    intro r hr
    rw [hidem]
    exact hfresh r hr
  have hsel : selectIdsByUsername (stringsToLower d.Username)
      { db with users := db.users ++
          [{ id := maxUserId db + 1, username := stringsToLower d.Username }] } =
      [maxUserId db + 1] := by
    unfold selectIdsByUsername
    show (((db.users ++ [UserRow.mk (maxUserId db + 1) (stringsToLower d.Username)]).filter
        (fun u => u.username == stringsToLower d.Username)).map (fun u => u.id)) =
      [maxUserId db + 1]
    rw [List.filter_append, hfilter_nil, List.filter_cons_of_pos (by simp)]
    rfl
  have h2 : «exists» (stringsToLower d.Username)
      { db with users := db.users ++
          [{ id := maxUserId db + 1, username := stringsToLower d.Username }] } =
      maxUserId db + 1 := by
    rw [exists_eq_getLastD, hidem, hsel]
    rfl
  have h2ne : «exists» (stringsToLower d.Username)
      { db with users := db.users ++
          [{ id := maxUserId db + 1, username := stringsToLower d.Username }] } ≠ -1 := by
    rw [h2]
    omega
  have hadd : AddUser d db = (maxUserId db + 1,
      ⟨db.users ++ [⟨maxUserId db + 1, stringsToLower d.Username⟩],
        db.userdata ++ [⟨maxUserId db + 1, d.Name, d.Surname, d.Description⟩]⟩) := by
    simp only [AddUser]
    rw [if_neg (not_not_intro h1), if_neg h2ne, h2]
  have hud_nil : db.userdata.filter (fun p => p.userID == maxUserId db + 1) = [] := by
    refine List.filter_eq_nil_iff.mpr ?_
    intro p hp
    simp only [beq_iff_eq]
    obtain ⟨u, hu, huid⟩ := hfk p hp
    have hle := mem_le_maxUserId hu
    intro hEq
    rw [← huid] at hEq
    omega
  have hB : (db.userdata ++ [ProfileRow.mk (maxUserId db + 1) d.Name d.Surname d.Description]).filter
      (fun p => p.userID == maxUserId db + 1) =
      [ProfileRow.mk (maxUserId db + 1) d.Name d.Surname d.Description] := by
    rw [List.filter_append, hud_nil, List.filter_cons_of_pos (by simp)]
    rfl
  refine ⟨by rw [hadd], by rw [hadd]; omega, by rw [hadd], by rw [hadd], ?_⟩
  rw [hadd]
  show (ListUsers ⟨db.users ++ [UserRow.mk (maxUserId db + 1) (stringsToLower d.Username)],
      db.userdata ++ [ProfileRow.mk (maxUserId db + 1) d.Name d.Surname d.Description]⟩).filter
      (fun r => r.Username == stringsToLower d.Username) = _
  unfold ListUsers
  rw [List.flatMap_append, List.flatMap_cons, List.flatMap_nil, List.append_nil,
    List.filter_append]
  have hA : ((db.users.flatMap (fun u =>
      ((db.userdata ++ [ProfileRow.mk (maxUserId db + 1) d.Name d.Surname d.Description]).filter
        (fun p => p.userID == u.id)).map (combine u))).filter
      (fun r => r.Username == stringsToLower d.Username)) = [] := by
    refine List.filter_eq_nil_iff.mpr ?_
    intro r hr
    obtain ⟨u, hu, hru⟩ := List.mem_flatMap.mp hr
    obtain ⟨p, _, hpr⟩ := List.mem_map.mp hru
    simp only [beq_iff_eq]
    rw [← hpr]
    exact hfresh u hu
  rw [hA, hB, List.map_cons, List.map_nil, List.filter_cons_of_pos (by simp [combine]),
    List.filter_nil, List.nil_append]
  rfl

/-- C2 witness: adding the record with username "Alice" to the empty store
returns id 1, appends the user row (1, "alice") and the profile row
(1, N, S, D), and the follow-up listing has exactly the one combined record
(1, alice, N, S, D). -/
theorem c2_witness :
    (AddUser ⟨0, "Alice", "N", "S", "D"⟩ ⟨[], []⟩).1 = maxUserId ⟨[], []⟩ + 1 ∧
    1 ≤ (AddUser ⟨0, "Alice", "N", "S", "D"⟩ ⟨[], []⟩).1 ∧
    (AddUser ⟨0, "Alice", "N", "S", "D"⟩ ⟨[], []⟩).2.users =
      (DB.mk [] []).users ++ [⟨maxUserId ⟨[], []⟩ + 1, stringsToLower "Alice"⟩] ∧
    (AddUser ⟨0, "Alice", "N", "S", "D"⟩ ⟨[], []⟩).2.userdata =
      (DB.mk [] []).userdata ++ [⟨maxUserId ⟨[], []⟩ + 1, "N", "S", "D"⟩] ∧
    (ListUsers (AddUser ⟨0, "Alice", "N", "S", "D"⟩ ⟨[], []⟩).2).filter
        (fun r => r.Username == stringsToLower "Alice") =
      [⟨maxUserId ⟨[], []⟩ + 1, stringsToLower "Alice", "N", "S", "D"⟩] :=
  c2_addUser_fresh_roundtrip ⟨[], []⟩ ⟨0, "Alice", "N", "S", "D"⟩
    (by decide) (by decide)

end Sqlite06
